import Mathlib

/-!
# cfx-test-go: the HTTP server of `main.go`

A shallow embedding of `src/go/main.go`: the port resolution of `main`, the
route table it registers on a `gorilla/mux` router, and the four handlers.

What the program reads from its surroundings is an explicit input here:
the process environment (`os.Getenv`), the clock (`time.Now`), the hostname
lookup (`os.Hostname`) and the file tree under `./static/`.

`main.go` leaves routing and file serving to its libraries. Their part is
written out after their own sources, function by function and under the
names they have there: `Router.ServeHTTP`, `Router.Match`, `Route.Match` and
`cleanPath` of `gorilla/mux` (v1.8), `StripPrefix`, `FileServer`, `serveFile`,
`serveContent`, `Dir.Open`, `Error` and `NotFound` of `net/http`, `Clean` and
`Base` of `path`, `URL.String` of `net/url`.
-/

set_option autoImplicit false

namespace GoWebApp

/-! ## Strings -/

/-- Go `strings.HasPrefix(s, pre)`. -/
def hasPrefix (s pre : String) : Bool := pre.data.isPrefixOf s.data

/-- Go `strings.HasSuffix(s, suf)`. -/
def hasSuffix (s suf : String) : Bool := suf.data.isSuffixOf s.data

/-- Go `strings.TrimPrefix(s, pre)`. -/
def trimPrefix (s pre : String) : String :=
  if hasPrefix s pre then ⟨s.data.drop pre.data.length⟩ else s

/-- Go `strings.TrimSuffix(s, suf)`. -/
def trimSuffix (s suf : String) : String :=
  if hasSuffix s suf then ⟨s.data.take (s.data.length - suf.data.length)⟩ else s

/-- Go `strings.Contains(s, sub)`, as a proposition: `sub` occurs in `s`. -/
def Contains (s sub : String) : Prop := sub.data <:+: s.data

instance (s sub : String) : Decidable (Contains s sub) := by
  unfold Contains; infer_instance

/-! ## Values the handlers produce -/

/-- A `time.Time` instant, as nanoseconds since the Unix epoch. -/
abbrev Time := Int

/-- `type Response struct` (main.go, lines 14-19). -/
structure Response where
  Message : String
  Timestamp : Time
  Version : String
  Host : String
deriving DecidableEq, Repr

/-- `type HealthResponse struct` (main.go, lines 21-24). -/
structure HealthResponse where
  Status : String
  Timestamp : Time
deriving DecidableEq, Repr

/-- A JSON member value, as far as the two response structs need one. -/
inductive JSONValue
  | str (s : String)
  | time (t : Time)
deriving DecidableEq, Repr

/-- A JSON object: its members in encoding order. -/
abbrev JSONObject := List (String × JSONValue)

/-- The object `encoding/json` makes of a `Response`: one member per field,
named by its `json:"..."` tag, in declaration order. -/
def Response.toJSON (v : Response) : JSONObject :=
  [("message", .str v.Message), ("timestamp", .time v.Timestamp),
   ("version", .str v.Version), ("host", .str v.Host)]

/-- The object `encoding/json` makes of a `HealthResponse`. -/
def HealthResponse.toJSON (v : HealthResponse) : JSONObject :=
  [("status", .str v.Status), ("timestamp", .time v.Timestamp)]

/-- The member names of a JSON object. -/
def JSONObject.keys (o : JSONObject) : List String := o.map Prod.fst

/-- The value of member `k`, when there is one. -/
def JSONObject.get? (o : JSONObject) (k : String) : Option JSONValue :=
  (o.find? (fun kv => kv.1 == k)).map Prod.snd

/-! ## `http.Request` and `http.ResponseWriter` -/

/-- The parts of an `http.Request` a handler can look at: the method, the
path of the URL (`URL.Path`), the header fields under their canonical names,
and the body. The request target is taken in origin form (a path, no scheme
and no host), without a query string, and with a path that is sent without
optional escapes, so that `URL.RawPath` is empty. -/
structure Request where
  method : String
  path : String
  header : List (String × String) := []
  body : List UInt8 := []
deriving DecidableEq, Repr

/-- `r.Header.Get(key)` for a canonical `key`: the first value of that
field, `""` when the request does not carry it. -/
def Request.headerGet (r : Request) (key : String) : String :=
  ((r.header.find? (fun kv => kv.1 == key)).map Prod.snd).getD ""

/-- One write to the response body. -/
inductive Chunk
  /-- Literal text, as written by `fmt.Fprint`. -/
  | text (s : String)
  /-- The output of `json.Encoder.Encode`: the JSON text of the object, then a newline. -/
  | json (o : JSONObject)
  /-- Raw bytes, as copied from a file. -/
  | bytes (b : List UInt8)
deriving DecidableEq, Repr

/-- The state of an `http.ResponseWriter`: the header map the handler edits,
whether the status line went out, the status code (0 until then, as in
`net/http`), the header fields as they were at that moment, and the body. -/
structure ResponseWriter where
  header : List (String × String) := []
  wroteHeader : Bool := false
  status : Nat := 0
  sentHeader : List (String × String) := []
  body : List Chunk := []
deriving DecidableEq, Repr

namespace ResponseWriter

/-- The writer a handler is given for a new request. -/
def fresh : ResponseWriter := {}

/-- `w.Header().Set(key, value)`: replaces whatever `key` held. -/
def headerSet (w : ResponseWriter) (key value : String) : ResponseWriter :=
  { w with header := (key, value) :: w.header.filter (fun kv => kv.1 != key) }

/-- `w.WriteHeader(code)`: the first call fixes the status and the header
fields that are sent; later calls change nothing. -/
def WriteHeader (w : ResponseWriter) (code : Nat) : ResponseWriter :=
  if w.wroteHeader then w
  else { w with wroteHeader := true, status := code, sentHeader := w.header }

/-- `w.Write(data)`: sends status 200 first if no status went out yet. -/
def Write (w : ResponseWriter) (c : Chunk) : ResponseWriter :=
  let w1 := if w.wroteHeader then w else w.WriteHeader 200
  { w1 with body := w1.body ++ [c] }

/-- The value of a header field as it was sent. -/
def sent (w : ResponseWriter) (key : String) : Option String :=
  (w.sentHeader.find? (fun kv => kv.1 == key)).map Prod.snd

end ResponseWriter

/-- `fmt.Fprint(w, s)`. -/
def Fprint (w : ResponseWriter) (s : String) : ResponseWriter := w.Write (.text s)

/-- `json.NewEncoder(w).Encode(v)` for a value whose JSON object is `o`. The
two response structs hold strings and a `time.Time`; encoding them succeeds
for every instant whose year lies in 0..9999, which a clock reading is taken
to be. -/
def Encode (w : ResponseWriter) (o : JSONObject) : ResponseWriter := w.Write (.json o)

/-! ## What the process reads from its surroundings -/

/-- The process environment: the value of each variable that is set. -/
abbrev Environ := String → Option String

/-- `os.Getenv(key)`: the value of the variable, `""` when it is not set. -/
def Getenv (env : Environ) (key : String) : String := (env key).getD ""

/-- The outcome of the operating system's hostname lookup. -/
inductive HostnameLookup
  | ok (name : String)
  | failed (err : String)
deriving DecidableEq, Repr

/-- `os.Hostname()`: the pair `(name, err)` it returns; on failure the name
is `""` and the error is set. -/
def Hostname : HostnameLookup → String × Option String
  | .ok name => (name, none)
  | .failed err => ("", some err)

/-! ## `main`: port resolution (main.go, lines 38-44) -/

/-- The value of `port` after lines 38-41. -/
def resolvePort (env : Environ) : String :=
  let port := Getenv env "PORT"
  if port == "" then "8080" else port

/-- The address handed to `http.ListenAndServe` on line 44. -/
def listenAddr (env : Environ) : String := ":" ++ resolvePort env

/-! ## The handlers (main.go, lines 47-109) -/

/-- The raw string literal of lines 49-72. -/
def html : String :=
  "\n" ++
  "\t<!DOCTYPE html>\n" ++
  "\t<html>\n" ++
  "\t<head>\n" ++
  "\t\t<title>Go Web App</title>\n" ++
  "\t\t<style>\n" ++
  "\t\t\tbody \x7b font-family: Arial, sans-serif; margin: 40px; background-color: #f4f4f4; \x7d\n" ++
  "\t\t\t.container \x7b background: white; padding: 20px; border-radius: 8px; box-shadow: 0 2px 4px rgba(0,0,0,0.1); \x7d\n" ++
  "\t\t\th1 \x7b color: #333; \x7d\n" ++
  "\t\t\t.endpoint \x7b background: #e8f4f8; padding: 10px; margin: 10px 0; border-radius: 4px; \x7d\n" ++
  "\t\t</style>\n" ++
  "\t</head>\n" ++
  "\t<body>\n" ++
  "\t\t<div class=\"container\">\n" ++
  "\t\t\t<h1>Go Web Application</h1>\n" ++
  "\t\t\t<p>Welcome to the containerized Go web application!</p>\n" ++
  "\t\t\t<h3>Available Endpoints:</h3>\n" ++
  "\t\t\t<div class=\"endpoint\"><strong>GET /</strong> - This page</div>\n" ++
  "\t\t\t<div class=\"endpoint\"><strong>GET /api/hello</strong> - JSON API endpoint</div>\n" ++
  "\t\t\t<div class=\"endpoint\"><strong>GET /health</strong> - Health check</div>\n" ++
  "\t\t\t<div class=\"endpoint\"><strong>GET /ready</strong> - Readiness probe</div>\n" ++
  "\t\t</div>\n" ++
  "\t</body>\n" ++
  "\t</html>"

/-- `func homeHandler` (lines 47-74). -/
def homeHandler (w : ResponseWriter) (_r : Request) : ResponseWriter :=
  let w := w.headerSet "Content-Type" "text/html"
  Fprint w html

/-- The `response` value `helloHandler` builds (lines 77-84). -/
def helloResponse (hostname : HostnameLookup) (now : Time) : Response :=
  let hostname := (Hostname hostname).1
  { Message := "Hello from Go Web App running on Kubernetes!"
    Timestamp := now
    Version := "1.0.0"
    Host := hostname }

/-- `func helloHandler` (lines 76-88); `hostname` is what the lookup of line
77 comes to and `now` is the reading `time.Now()` gives on line 81. -/
def helloHandler (hostname : HostnameLookup) (now : Time)
    (w : ResponseWriter) (_r : Request) : ResponseWriter :=
  let response := helloResponse hostname now
  let w := w.headerSet "Content-Type" "application/json"
  Encode w response.toJSON

/-- The `response` value `healthHandler` builds (lines 91-94). -/
def healthResponse (now : Time) : HealthResponse :=
  { Status := "healthy", Timestamp := now }

/-- `func healthHandler` (lines 90-98). -/
def healthHandler (now : Time) (w : ResponseWriter) (_r : Request) : ResponseWriter :=
  let response := healthResponse now
  let w := w.headerSet "Content-Type" "application/json"
  Encode w response.toJSON

/-- The `response` value `readyHandler` builds (lines 102-105). -/
def readyResponse (now : Time) : HealthResponse :=
  { Status := "ready", Timestamp := now }

/-- `func readyHandler` (lines 100-109). -/
def readyHandler (now : Time) (w : ResponseWriter) (_r : Request) : ResponseWriter :=
  let response := readyResponse now
  let w := w.headerSet "Content-Type" "application/json"
  Encode w response.toJSON

/-! ## `path.Clean` and the canonical path of `gorilla/mux`

`path.Clean`, written over the path elements instead of over byte indexes:
the elements between slashes are read left to right; an empty element and
`.` are dropped, `..` removes the element before it, when there is one to
remove, and is kept only in front of a path that is not rooted. -/

/-- The elements of a path: the text between its slashes. -/
def splitSlash : List Char → List (List Char)
  | [] => [[]]
  | c :: cs =>
    if c = '/' then [] :: splitSlash cs
    else match splitSlash cs with
      | [] => [[c]]
      | seg :: rest => (c :: seg) :: rest

/-- One turn of the loop of `path.Clean`; `stack` holds the elements written
so far, the last one first. -/
def cleanStep (rooted : Bool) (stack : List (List Char)) (seg : List Char) :
    List (List Char) :=
  if seg = [] ∨ seg = ['.'] then stack
  else if seg = ['.', '.'] then
    match stack with
    | top :: below => if top = ['.', '.'] then seg :: stack else below
    | [] => if rooted then [] else [seg]
  else seg :: stack

/-- Go `path.Clean(p)`. -/
def pathClean (p : String) : String :=
  if p = "" then "."
  else
    let rooted : Bool := p.data.head? = some '/'
    let stack := (splitSlash p.data).foldl (cleanStep rooted) []
    let out : List Char := (if rooted then ['/'] else []) ++
      List.intercalate ['/'] stack.reverse
    if out = [] then "." else ⟨out⟩

/-- The function `cleanPath` of `gorilla/mux`: the canonical form of a URL
path, rooted, cleaned, and with its trailing slash kept. -/
def cleanPath (p : String) : String :=
  if p = "" then "/"
  else
    let p := if p.data.head? = some '/' then p else "/" ++ p
    let np := pathClean p
    if p.data.getLast? = some '/' ∧ np ≠ "/" then np ++ "/" else np

/-! ## `URL.String` of `net/url`

The router answers a path that is not canonical with a redirect whose
`Location` is the URL of the request with the cleaned path put in, written
out by `URL.String()`, which escapes the path. -/

/-- The UTF-8 bytes of a character. -/
def utf8Bytes (c : Char) : List Nat :=
  let n := c.toNat
  if n < 0x80 then [n]
  else if n < 0x800 then [0xC0 + n / 0x40, 0x80 + n % 0x40]
  else if n < 0x10000 then [0xE0 + n / 0x1000, 0x80 + n / 0x40 % 0x40, 0x80 + n % 0x40]
  else [0xF0 + n / 0x40000, 0x80 + n / 0x1000 % 0x40, 0x80 + n / 0x40 % 0x40,
        0x80 + n % 0x40]

/-- The function `shouldEscape(c, encodePath)` of `net/url`: letters, digits,
the marks `- _ . ~` and the reserved characters other than `?` stay as they
are in a path; every other byte is escaped. -/
def shouldEscape (c : Nat) : Bool :=
  if ('a'.toNat ≤ c ∧ c ≤ 'z'.toNat) ∨ ('A'.toNat ≤ c ∧ c ≤ 'Z'.toNat) ∨
      ('0'.toNat ≤ c ∧ c ≤ '9'.toNat) then false
  else if c ∈ ['-', '_', '.', '~'].map Char.toNat then false
  else if c ∈ ['$', '&', '+', ',', '/', ':', ';', '=', '?', '@'].map Char.toNat then
    c = '?'.toNat
  else true

/-- The digit of `n` in `"0123456789ABCDEF"`. -/
def upperhex (n : Nat) : Char := "0123456789ABCDEF".data.getD n '0'

/-- The function `escape(s, encodePath)` of `net/url`: each byte that must be
escaped becomes `%` and its two hexadecimal digits. -/
def escapePath (s : String) : String :=
  ⟨(s.data.flatMap utf8Bytes).flatMap (fun b =>
    if shouldEscape b then ['%', upperhex (b / 16), upperhex (b % 16)]
    else [Char.ofNat b])⟩

/-- `URL.EscapedPath()` for a URL with path `path` and no `RawPath`. -/
def EscapedPath (path : String) : String :=
  if path = "*" then "*" else escapePath path

/-- `URL.String()` for a URL that has a path only: the escaped path, after
`./` when its first element holds a colon. -/
def urlString (path : String) : String :=
  let path := EscapedPath path
  (if (path.data.takeWhile (fun c => c ≠ '/')).contains ':' then "./" else "") ++ path

/-! ## The router built in `main` (main.go, lines 27-36) -/

/-- The handlers `main` registers. `staticFiles` is the value
`http.StripPrefix("/static/", http.FileServer(http.Dir("./static/")))`. -/
inductive Handler
  | homeHandler
  | helloHandler
  | healthHandler
  | readyHandler
  | staticFiles
deriving DecidableEq, Repr

/-- A matcher of a `mux.Route`. -/
inductive Matcher
  /-- Added by `HandleFunc(tpl, ...)`: the whole path equals `tpl`
  (a template without variables compiles to `^tpl$`). -/
  | path (tpl : String)
  /-- Added by `PathPrefix(tpl)`: the path starts with `tpl` (`^tpl`). -/
  | pathPrefix (tpl : String)
  /-- Added by `Methods(ms...)`: the request method is one of `ms`. -/
  | methods (ms : List String)
deriving DecidableEq, Repr

/-- A `mux.Route`: its matchers, in the order they were added, and its handler. -/
structure Route where
  matchers : List Matcher
  handler : Handler
deriving DecidableEq, Repr

/-- The routes of the router, in registration order (lines 30-33 and 36). -/
def routes : List Route :=
  [ ⟨[.path "/", .methods ["GET"]], .homeHandler⟩,
    ⟨[.path "/api/hello", .methods ["GET"]], .helloHandler⟩,
    ⟨[.path "/health", .methods ["GET"]], .healthHandler⟩,
    ⟨[.path "/ready", .methods ["GET"]], .readyHandler⟩,
    ⟨[.pathPrefix "/static/"], .staticFiles⟩ ]

/-- `Matcher.Match(req)`. -/
def Matcher.Match (m : Matcher) (req : Request) : Bool :=
  match m with
  | .path tpl => req.path == tpl
  | .pathPrefix tpl => hasPrefix req.path tpl
  | .methods ms => ms.contains req.method

/-- The two errors a `mux.RouteMatch` can carry. -/
inductive MatchErr
  | ErrMethodMismatch
  | ErrNotFound
deriving DecidableEq, Repr

/-- The fields of `mux.RouteMatch` that decide which handler runs. -/
structure RouteMatch where
  Handler : Option Handler := none
  MatchErr : Option MatchErr := none
deriving DecidableEq, Repr

/-- The loop over the matchers in `Route.Match`. A method matcher that fails is
remembered in `matchErr` and the loop goes on; any other matcher that fails
ends the match; a matcher that succeeds clears an `ErrMethodMismatch` left by
an earlier route. The result is `none` when the route is rejected inside the
loop, and the local `matchErr` otherwise, each with the updated match. -/
def Route.matchLoop (req : Request) :
    List Matcher → Option MatchErr → RouteMatch → Option (Option MatchErr) × RouteMatch
  | [], matchErr, m => (some matchErr, m)
  | mt :: rest, matchErr, m =>
    if mt.Match req then
      let m := if m.MatchErr = some .ErrMethodMismatch then { m with MatchErr := none } else m
      Route.matchLoop req rest matchErr m
    else
      match mt with
      | .methods _ => Route.matchLoop req rest (some .ErrMethodMismatch) m
      | _ =>
        let m := if m.MatchErr = some .ErrNotFound then { m with MatchErr := none } else m
        (none, m)

/-- `Route.Match(req, match)`: whether the route takes the request, and the
match as the route leaves it. -/
def Route.Match (r : Route) (req : Request) (m : RouteMatch) : Bool × RouteMatch :=
  match Route.matchLoop req r.matchers none m with
  | (none, m) => (false, m)
  | (some (some err), m) => (false, { m with MatchErr := some err })
  | (some none, m) =>
    let m := if m.MatchErr = some .ErrMethodMismatch
      then { m with MatchErr := none, Handler := some r.handler } else m
    let m := if m.Handler = none then { m with Handler := some r.handler } else m
    (true, m)

/-- The loop over the routes in `Router.Match`: the first route that takes
the request ends it. -/
def Router.matchRoutes (req : Request) : List Route → RouteMatch → Bool × RouteMatch
  | [], m => (false, m)
  | r :: rest, m =>
    match r.Match req m with
    | (true, m) => (true, m)
    | (false, m) => Router.matchRoutes req rest m

/-- `Router.Match(req, match)` for a router with no `NotFoundHandler` and no
`MethodNotAllowedHandler` set, as the one of `main`. -/
def Router.Match (rs : List Route) (req : Request) : Bool × RouteMatch :=
  match Router.matchRoutes req rs {} with
  | (true, m) => (true, m)
  | (false, m) =>
    if m.MatchErr = some .ErrMethodMismatch then (false, m)
    else (false, { m with MatchErr := some .ErrNotFound })

/-- What `Router.ServeHTTP` does with a request. -/
inductive Dispatch
  /-- The path is not canonical: status 301 with `Location` the URL of the
  request with the canonical path `p` put in; no route is tried. -/
  | moved (p : String)
  /-- The handler of the matching route is called. -/
  | handler (h : Handler)
  /-- No route matched and one failed on the method only: status 405. -/
  | methodNotAllowed
  /-- No route matched: `http.NotFoundHandler()`, status 404. -/
  | notFound
deriving DecidableEq, Repr

/-- `Router.ServeHTTP` up to the call of the handler it selects. -/
def Router.dispatch (rs : List Route) (req : Request) : Dispatch :=
  let p := cleanPath req.path
  if p ≠ req.path then .moved p
  else
    match Router.Match rs req with
    | (true, { Handler := some h, .. }) => .handler h
    | (_, m) =>
      if m.MatchErr = some .ErrMethodMismatch then .methodNotAllowed else .notFound

/-! ## Responses written by `net/http` and `gorilla/mux` themselves -/

/-- `http.Error(w, msg, code)`. -/
def Error (w : ResponseWriter) (msg : String) (code : Nat) : ResponseWriter :=
  let w := w.headerSet "Content-Type" "text/plain; charset=utf-8"
  let w := w.headerSet "X-Content-Type-Options" "nosniff"
  let w := w.WriteHeader code
  w.Write (.text (msg ++ "\n"))

/-- `http.NotFound(w, r)`, which is also what `http.NotFoundHandler()` runs. -/
def NotFound (w : ResponseWriter) : ResponseWriter := Error w "404 page not found" 404

/-- The handler `mux` runs on `ErrMethodMismatch`: status 405, nothing else. -/
def methodNotAllowed (w : ResponseWriter) : ResponseWriter := w.WriteHeader 405

/-- A redirect with status 301: what `mux` sends for a path that is not
canonical, and `localRedirect` of the file server. -/
def movedPermanently (w : ResponseWriter) (location : String) : ResponseWriter :=
  (w.headerSet "Location" location).WriteHeader 301

/-! ## The static mount (main.go, line 36) -/

/-- What opening a name under the static root comes to. -/
inductive OpenResult
  /-- There is nothing of that name (`fs.ErrNotExist`). -/
  | notExist
  /-- Access is refused (`fs.ErrPermission`). -/
  | permission
  /-- Any other error. -/
  | failure
  /-- A regular file and its bytes. -/
  | file (content : List UInt8)
  /-- A directory and the names in it. -/
  | dir (entries : List String)
deriving DecidableEq, Repr

/-- The file tree under `./static/`: what the operating system answers for
each rooted, cleaned, slash-separated name below that directory. -/
abbrev FileSystem := String → OpenResult

/-- The method `http.Dir("./static/").Open(name)`: the name is rooted and cleaned
before it is joined to the directory, so no name leads out of it. -/
def DirOpen (fs : FileSystem) (name : String) : OpenResult := fs (pathClean ("/" ++ name))

/-- Go `path.Base(p)`: the last element of the path. -/
def pathBase (p : String) : String :=
  if p = "" then "."
  else
    let s := (p.data.reverse.dropWhile (fun c => c = '/')).reverse
    let s := (s.reverse.takeWhile (fun c => c ≠ '/')).reverse
    if s = [] then "/" else ⟨s⟩

/-- How a request ends. -/
inductive Served
  /-- The response is complete as the writer holds it. -/
  | written (w : ResponseWriter)
  /-- An answer of `http.ServeContent`: its status and its body. The header
  fields that go with it (`Last-Modified`, `Content-Type`, `Accept-Ranges`,
  `Content-Length`) are not represented. -/
  | content (status : Nat) (body : List Chunk)
  /-- An answer of `http.ServeContent` over these bytes that is not worked out
  here: it depends on how the conditional or range header fields of the
  request compare with the modification time of the file, or on the byte
  ranges they name. -/
  | negotiated (bytes : List UInt8)
  /-- The file server lists a directory that has no `index.html`. -/
  | dirList (entries : List String)
deriving DecidableEq, Repr

/-- The function `serveContent` of `net/http` for a file with these bytes, the
file server having set no `Etag`. In the order of `checkPreconditions`: an
`If-Match` or `If-Unmodified-Since` field is not worked out; `If-None-Match: *`
fails, which gives 304 to GET and HEAD and 412 to other methods; any other
`If-None-Match`, an `If-Modified-Since` and a `Range` with `If-Range` are not
worked out. A `Range` that does not start with `bytes=` is answered with status
416 and the text `invalid range`; other ranges are not worked out. With no
such field the status is 200 and the body is the whole file, or nothing for a
HEAD request. -/
def serveContent (r : Request) (content : List UInt8) : Served :=
  if r.headerGet "If-Match" ≠ "" ∨ r.headerGet "If-Unmodified-Since" ≠ "" then
    .negotiated content
  else if r.headerGet "If-None-Match" = "*" then
    (if r.method = "GET" ∨ r.method = "HEAD" then .content 304 [] else .content 412 [])
  else if r.headerGet "If-None-Match" ≠ "" ∨ r.headerGet "If-Modified-Since" ≠ "" then
    .negotiated content
  else if r.headerGet "Range" = "" then
    (if r.method = "HEAD" then .content 200 [] else .content 200 [.bytes content])
  else if r.headerGet "If-Range" ≠ "" then .negotiated content
  else if hasPrefix (r.headerGet "Range") "bytes=" then .negotiated content
  else .content 416 [.text "invalid range\n"]

/-- A request that carries none of the header fields `http.ServeContent`
acts on: no `If-Match`, `If-Unmodified-Since`, `If-None-Match`,
`If-Modified-Since` and no `Range`. -/
def Request.plain (r : Request) : Bool :=
  r.headerGet "If-Match" = "" ∧ r.headerGet "If-Unmodified-Since" = "" ∧
  r.headerGet "If-None-Match" = "" ∧ r.headerGet "If-Modified-Since" = "" ∧
  r.headerGet "Range" = ""

/-- The function `serveFile` of `net/http`, with `redirect` true, over the static root. -/
def serveFile (fs : FileSystem) (w : ResponseWriter) (r : Request) (name : String) : Served :=
  if hasSuffix r.path "/index.html" then .written (movedPermanently w "./")
  else
    match DirOpen fs name with
    | .notExist => .written (Error w "404 page not found" 404)
    | .permission => .written (Error w "403 Forbidden" 403)
    | .failure => .written (Error w "500 Internal Server Error" 500)
    | .dir entries =>
      if r.path.data.getLast? ≠ some '/' then
        .written (movedPermanently w (pathBase r.path ++ "/"))
      else
        match DirOpen fs (trimSuffix name "/" ++ "/index.html") with
        | .file content => serveContent r content
        | .dir entries => .dirList entries
        | _ => .dirList entries
    | .file content =>
      if r.path.data.getLast? = some '/' then
        .written (movedPermanently w ("../" ++ pathBase r.path))
      else serveContent r content

/-- The handler `http.FileServer(http.Dir("./static/"))`. -/
def FileServer (fs : FileSystem) (w : ResponseWriter) (r : Request) : Served :=
  let upath := r.path
  let r := if hasPrefix upath "/" then r else { r with path := "/" ++ upath }
  serveFile fs w r (pathClean r.path)

/-- The handler `http.StripPrefix(pre, h)`, for a `pre` that is not empty. -/
def StripPrefix (pre : String) (h : ResponseWriter → Request → Served)
    (w : ResponseWriter) (r : Request) : Served :=
  let p := trimPrefix r.path pre
  if p.length < r.path.length then h w { r with path := p }
  else .written (NotFound w)

/-- The handler registered on line 36. -/
def staticFiles (fs : FileSystem) (w : ResponseWriter) (r : Request) : Served :=
  StripPrefix "/static/" (FileServer fs) w r

/-! ## Serving a request -/

/-- What one request meets outside the program: the outcome of the hostname
lookup, the reading of the clock, and the file tree under `./static/`. -/
structure World where
  hostname : HostnameLookup
  now : Time
  static : FileSystem

/-- The call of a registered handler. -/
def Handler.ServeHTTP (env : World) (h : Handler) (w : ResponseWriter) (r : Request) : Served :=
  match h with
  | .homeHandler => .written (GoWebApp.homeHandler w r)
  | .helloHandler => .written (GoWebApp.helloHandler env.hostname env.now w r)
  | .healthHandler => .written (GoWebApp.healthHandler env.now w r)
  | .readyHandler => .written (GoWebApp.readyHandler env.now w r)
  | .staticFiles => GoWebApp.staticFiles env.static w r

/-- `Router.ServeHTTP(w, req)`. -/
def Router.ServeHTTP (env : World) (rs : List Route) (w : ResponseWriter) (req : Request) :
    Served :=
  match Router.dispatch rs req with
  | .moved p => .written (movedPermanently w (urlString p))
  | .handler h => h.ServeHTTP env w req
  | .methodNotAllowed => .written (methodNotAllowed w)
  | .notFound => .written (NotFound w)

/-- The server of `main`: the router with the routes of lines 30-36, given a
new writer for each request. -/
def serve (env : World) (req : Request) : Served :=
  Router.ServeHTTP env routes .fresh req

/-- The status code of a response, where it is worked out. -/
def Served.status? : Served → Option Nat
  | .written w => some w.status
  | .content status _ => some status
  | _ => none

/-- The paths of the four routes of lines 30-33. -/
def fixedPaths : List String := ["/", "/api/hello", "/health", "/ready"]

/-- A path element that `path.Clean` keeps as it is: not empty, not `.` and
not `..`. -/
def cleanElement (seg : List Char) : Bool := seg ≠ [] ∧ seg ≠ ['.'] ∧ seg ≠ ['.', '.']

/-- A relative path in clean form: one or more elements with single slashes
between them, none of them empty, `.` or `..`; so it is not empty and neither
starts nor ends with a slash. -/
def cleanRelative (p : String) : Bool := (splitSlash p.data).all cleanElement

/-! ## Concrete surroundings for the examples -/

/-- A static root that holds `app.js` and `index.html`. -/
def exampleFiles : FileSystem := fun name =>
  if name = "/" then .dir ["app.js", "index.html"]
  else if name = "/app.js" then .file [0x68, 0x69]
  else if name = "/index.html" then .file [0x3c, 0x70, 0x3e]
  else .notExist

/-- A host named `pod-1`, a clock reading, and the files above. -/
def exampleWorld : World := ⟨.ok "pod-1", 1700000000000000000, exampleFiles⟩

/-- An environment in which `PORT` is set to `9090` and nothing else is set. -/
def examplePort : Environ := fun key => if key = "PORT" then some "9090" else none

end GoWebApp

namespace GoWebApp

/-! ## Port resolution -/

/-- C1: the listen address is `":"` followed by the value of `PORT` when that
variable is set and not empty, and `":8080"` when it is unset or empty; two
environments that agree on `PORT` resolve to the same address. -/
theorem listenAddr_resolution (env : Environ) :
    (∀ v, env "PORT" = some v → v ≠ "" → listenAddr env = ":" ++ v) ∧
    (env "PORT" = none ∨ env "PORT" = some "" → listenAddr env = ":8080") ∧
    (∀ env2 : Environ, env2 "PORT" = env "PORT" → listenAddr env2 = listenAddr env) := by
  refine ⟨?_, ?_, ?_⟩
  · intro v hv hne
    simp [listenAddr, resolvePort, Getenv, hv, hne]
  · rintro (h | h) <;> simp [listenAddr, resolvePort, Getenv, h]
  · intro env2 h
    simp [listenAddr, resolvePort, Getenv, h]

/-- C1 at `PORT=9090`, and with `PORT` unset. -/
theorem listenAddr_resolution_witness :
    listenAddr examplePort = ":9090" ∧ listenAddr (fun _ => none) = ":8080" :=
  ⟨(listenAddr_resolution examplePort).1 "9090" (by decide) (by decide),
   (listenAddr_resolution (fun _ => none)).2.1 (Or.inl rfl)⟩

/-! ## The handlers -/

theorem Contains.append_right {x sub : String} (y : String) (h : Contains x sub) :
    Contains (x ++ y) sub := by
  unfold Contains at *
  rw [String.data_append]
  exact h.trans (List.prefix_append _ _).isInfix

theorem Contains.append_left {y sub : String} (x : String) (h : Contains y sub) :
    Contains (x ++ y) sub := by
  unfold Contains at *
  rw [String.data_append]
  exact h.trans (List.suffix_append _ _).isInfix

theorem html_contains_hello : Contains html "/api/hello" := by
  unfold html
  iterate 5 apply Contains.append_right
  apply Contains.append_left
  exact ⟨"\t\t\t<div class=\"endpoint\"><strong>GET ".data,
    "</strong> - JSON API endpoint</div>\n".data, rfl⟩

theorem html_contains_health : Contains html "/health" := by
  unfold html
  iterate 4 apply Contains.append_right
  apply Contains.append_left
  exact ⟨"\t\t\t<div class=\"endpoint\"><strong>GET ".data,
    "</strong> - Health check</div>\n".data, rfl⟩

theorem html_contains_ready : Contains html "/ready" := by
  unfold html
  iterate 3 apply Contains.append_right
  apply Contains.append_left
  exact ⟨"\t\t\t<div class=\"endpoint\"><strong>GET ".data,
    "</strong> - Readiness probe</div>\n".data, rfl⟩

/-- C4: for every request, `homeHandler` sends Content-Type `text/html` with
status 200 and writes the one fixed document `html`, whatever the request
holds; that document contains `/api/hello`, `/health` and `/ready`. -/
theorem homeHandler_response (r : Request) :
    (homeHandler .fresh r).sent "Content-Type" = some "text/html" ∧
    (homeHandler .fresh r).status = 200 ∧
    (homeHandler .fresh r).body = [.text html] ∧
    (∀ r2 : Request, homeHandler .fresh r2 = homeHandler .fresh r) ∧
    Contains html "/api/hello" ∧ Contains html "/health" ∧ Contains html "/ready" :=
  ⟨rfl, rfl, rfl, fun _ => rfl,
   html_contains_hello, html_contains_health, html_contains_ready⟩

/-- C5: for every request, clock reading and outcome of the hostname lookup,
the value `helloHandler` encodes has the fixed message and version `1.0.0`,
its JSON object has exactly the members message, timestamp, version and host,
and it is sent with Content-Type `application/json` and status 200. -/
theorem helloHandler_response (hostname : HostnameLookup) (now : Time) (r : Request) :
    (helloHandler hostname now .fresh r).body = [.json (helloResponse hostname now).toJSON] ∧
    (helloResponse hostname now).Message = "Hello from Go Web App running on Kubernetes!" ∧
    (helloResponse hostname now).Version = "1.0.0" ∧
    (helloResponse hostname now).toJSON.keys = ["message", "timestamp", "version", "host"] ∧
    (helloHandler hostname now .fresh r).sent "Content-Type" = some "application/json" ∧
    (helloHandler hostname now .fresh r).status = 200 :=
  ⟨rfl, rfl, rfl, rfl, rfl, rfl⟩

/-- C6: when the hostname lookup gives `h` the host field is `h`; when it
fails the host field is `""`, and the handler answers as it does for a lookup
that gave `""`: same message, version, Content-Type and status 200, with
nothing of the error in the response. -/
theorem helloHandler_hostname_fallback (now : Time) (r : Request) :
    (∀ h, (helloResponse (.ok h) now).Host = h) ∧
    (∀ err, (helloResponse (.failed err) now).Host = "") ∧
    (∀ err, helloHandler (.failed err) now .fresh r = helloHandler (.ok "") now .fresh r) ∧
    (∀ err h,
      (helloResponse (.failed err) now).Message = (helloResponse (.ok h) now).Message ∧
      (helloResponse (.failed err) now).Version = (helloResponse (.ok h) now).Version ∧
      (helloHandler (.failed err) now .fresh r).sent "Content-Type" =
        (helloHandler (.ok h) now .fresh r).sent "Content-Type" ∧
      (helloHandler (.failed err) now .fresh r).status = 200 ∧
      (helloHandler (.ok h) now .fresh r).status = 200) :=
  ⟨fun _ => rfl, fun _ => rfl, fun _ => rfl,
   fun _ _ => ⟨rfl, rfl, rfl, rfl, rfl⟩⟩

/-- C7: for every request and clock reading, the value `healthHandler` encodes
has status `healthy` and is sent with Content-Type `application/json` and
status 200; the response is the same for every request. -/
theorem healthHandler_response (now : Time) (r : Request) :
    (healthHandler now .fresh r).body = [.json (healthResponse now).toJSON] ∧
    (healthResponse now).Status = "healthy" ∧
    (healthResponse now).toJSON.get? "status" = some (.str "healthy") ∧
    (healthHandler now .fresh r).sent "Content-Type" = some "application/json" ∧
    (healthHandler now .fresh r).status = 200 ∧
    (∀ r2 : Request, healthHandler now .fresh r2 = healthHandler now .fresh r) :=
  ⟨rfl, rfl, rfl, rfl, rfl, fun _ => rfl⟩

/-- C8: for every request and clock reading, the value `readyHandler` encodes
has status `ready`, which is not `healthy`, and is sent with Content-Type
`application/json` and status 200. -/
theorem readyHandler_response (now : Time) (r : Request) :
    (readyHandler now .fresh r).body = [.json (readyResponse now).toJSON] ∧
    (readyResponse now).Status = "ready" ∧
    (readyResponse now).Status ≠ "healthy" ∧
    (readyResponse now).toJSON.get? "status" = some (.str "ready") ∧
    (readyHandler now .fresh r).sent "Content-Type" = some "application/json" ∧
    (readyHandler now .fresh r).status = 200 ∧
    (∀ r2 : Request, readyHandler now .fresh r2 = readyHandler now .fresh r) :=
  ⟨rfl, rfl, by simp [readyResponse], rfl, rfl, rfl, fun _ => rfl⟩

/-- C9: in `helloHandler`, `healthHandler` and `readyHandler` the timestamp of
the encoded value is the clock reading of that call, whatever the request and
the hostname lookup; calls given the readings `t1` and `t2` carry `t1` and `t2`. -/
theorem timestamp_is_clock_reading (hostname : HostnameLookup) (t1 t2 : Time)
    (r1 r2 : Request) :
    (helloResponse hostname t1).Timestamp = t1 ∧
    (healthResponse t1).Timestamp = t1 ∧
    (readyResponse t1).Timestamp = t1 ∧
    (helloHandler hostname t1 .fresh r1).body =
      [.json [("message", .str "Hello from Go Web App running on Kubernetes!"),
        ("timestamp", .time t1), ("version", .str "1.0.0"),
        ("host", .str (Hostname hostname).1)]] ∧
    (healthHandler t1 .fresh r1).body =
      [.json [("status", .str "healthy"), ("timestamp", .time t1)]] ∧
    (readyHandler t1 .fresh r1).body =
      [.json [("status", .str "ready"), ("timestamp", .time t1)]] ∧
    (helloHandler hostname t2 .fresh r2).body =
      [.json [("message", .str "Hello from Go Web App running on Kubernetes!"),
        ("timestamp", .time t2), ("version", .str "1.0.0"),
        ("host", .str (Hostname hostname).1)]] ∧
    (healthHandler t2 .fresh r2).body =
      [.json [("status", .str "healthy"), ("timestamp", .time t2)]] ∧
    (readyHandler t2 .fresh r2).body =
      [.json [("status", .str "ready"), ("timestamp", .time t2)]] :=
  ⟨rfl, rfl, rfl, rfl, rfl, rfl, rfl, rfl, rfl⟩

/-! ## Path elements -/

theorem splitSlash_ne_nil (s : List Char) : splitSlash s ≠ [] := by
  induction s with
  | nil => simp [splitSlash]
  | cons c cs ih =>
    unfold splitSlash
    split
    · simp
    · split <;> simp

theorem intercalate_cons_cons (sep x y : List Char) (ys : List (List Char)) :
    List.intercalate sep (x :: y :: ys) = x ++ sep ++ List.intercalate sep (y :: ys) := by
  simp [List.intercalate, List.intersperse]

/-- Joining the elements of a path with slashes gives the path back. -/
theorem intercalate_splitSlash (s : List Char) :
    List.intercalate ['/'] (splitSlash s) = s := by
  induction s with
  | nil => simp [splitSlash, List.intercalate]
  | cons c cs ih =>
    unfold splitSlash
    split
    · rename_i hc
      obtain ⟨y, ys, hy⟩ := List.exists_cons_of_ne_nil (splitSlash_ne_nil cs)
      rw [hy, intercalate_cons_cons, ← hy, ih, hc]
      simp
    · split
      · rename_i h
        exact absurd h (splitSlash_ne_nil cs)
      · rename_i seg rest h
        rw [h] at ih
        cases rest with
        | nil =>
          simp [List.intercalate] at ih ⊢
          exact ih
        | cons y ys =>
          rw [intercalate_cons_cons] at ih ⊢
          simp at ih ⊢
          exact ih

/-- A path has one element more than it has slashes. -/
theorem splitSlash_length (s : List Char) : (splitSlash s).length = s.count '/' + 1 := by
  induction s with
  | nil => simp [splitSlash]
  | cons c cs ih =>
    unfold splitSlash
    split
    · rename_i hc
      simp [hc, ih]
    · rename_i hc
      have hne : ¬ ('/' = c) := fun h => hc h.symm
      split
      · rename_i h
        exact absurd h (splitSlash_ne_nil cs)
      · rename_i seg rest h
        rw [h] at ih
        simp [List.count_cons, hc] at ih ⊢
        exact ih

/-- The last element of a path that ends in a slash is empty. -/
theorem splitSlash_getLast (s : List Char) (h : s.getLast? = some '/') :
    (splitSlash s).getLast? = some [] := by
  induction s with
  | nil => simp at h
  | cons c cs ih =>
    by_cases hcs : cs = []
    · subst hcs
      simp at h
      subst h
      simp [splitSlash]
    · have hlast : cs.getLast? = some '/' := by
        obtain ⟨d, ds, hd⟩ := List.exists_cons_of_ne_nil hcs
        rw [hd] at h ⊢
        simpa [List.getLast?_cons_cons] using h
      have ih2 := ih hlast
      have hmem : '/' ∈ cs := List.mem_of_getLast?_eq_some hlast
      have hlen : 2 ≤ (splitSlash cs).length := by
        rw [splitSlash_length]
        have := List.count_pos_iff.mpr hmem
        omega
      unfold splitSlash
      split
      · obtain ⟨y, ys, hy⟩ := List.exists_cons_of_ne_nil (splitSlash_ne_nil cs)
        rw [hy, List.getLast?_cons_cons, ← hy]
        exact ih2
      · split
        · rename_i h0
          exact absurd h0 (splitSlash_ne_nil cs)
        · rename_i seg rest h0
          rw [h0] at ih2 hlen
          cases rest with
          | nil => simp at hlen
          | cons y ys =>
            rw [List.getLast?_cons_cons] at ih2 ⊢
            exact ih2

/-- Over elements that are empty or clean, the loop of `path.Clean` pushes
the clean ones and drops the empty ones. -/
theorem foldl_cleanStep (rooted : Bool) (segs stack : List (List Char))
    (h : ∀ seg ∈ segs, seg = [] ∨ cleanElement seg = true) :
    segs.foldl (cleanStep rooted) stack = (segs.filter (fun seg => seg ≠ [])).reverse ++ stack := by
  induction segs generalizing stack with
  | nil => simp
  | cons seg rest ih =>
    have hrest : ∀ x ∈ rest, x = [] ∨ cleanElement x = true :=
      fun x hx => h x (List.mem_cons_of_mem _ hx)
    rw [List.foldl_cons, ih _ hrest]
    rcases h seg (List.mem_cons_self _ _) with h0 | h1
    · subst h0
      simp [cleanStep]
    · simp only [cleanElement, ne_eq, Bool.decide_and, Bool.and_eq_true,
        decide_eq_true_eq] at h1
      obtain ⟨n0, n1, n2⟩ := h1
      simp [cleanStep, n0, n1, n2]

/-- `path.Clean` of a rooted path whose elements are empty or clean: the
clean elements, each after one slash. -/
theorem pathClean_rooted (t : List Char)
    (h : ∀ seg ∈ splitSlash t, seg = [] ∨ cleanElement seg = true) :
    pathClean ⟨'/' :: t⟩ =
      ⟨'/' :: List.intercalate ['/'] ((splitSlash t).filter (fun seg => seg ≠ []))⟩ := by
  have hne : (⟨'/' :: t⟩ : String) ≠ "" := by
    intro h0
    have := congrArg String.data h0
    simp at this
  have hsplit : splitSlash ('/' :: t) = [] :: splitSlash t := by
    simp [splitSlash]
  have hall : ∀ seg ∈ ([] : List Char) :: splitSlash t, seg = [] ∨ cleanElement seg = true := by
    intro seg hseg
    rcases List.mem_cons.mp hseg with h0 | h1
    · exact Or.inl h0
    · exact h seg h1
  simp only [pathClean, hne, if_false, hsplit, List.head?_cons, decide_True, if_true]
  rw [foldl_cleanStep true _ _ hall]
  simp

theorem cleanRelative_elements {p : String} (hp : cleanRelative p = true) :
    ∀ seg ∈ splitSlash p.data, cleanElement seg = true := by
  simpa [cleanRelative, List.all_eq_true] using hp

theorem cleanRelative_filter {p : String} (hp : cleanRelative p = true) :
    (splitSlash p.data).filter (fun seg => seg ≠ []) = splitSlash p.data := by
  rw [List.filter_eq_self]
  intro seg hseg
  have := cleanRelative_elements hp seg hseg
  simp only [cleanElement, ne_eq, Bool.decide_and, Bool.and_eq_true, decide_eq_true_eq] at this
  simp [this.1]

/-- A clean relative path is not empty. -/
theorem cleanRelative_ne_nil {p : String} (hp : cleanRelative p = true) : p.data ≠ [] := by
  intro h0
  have := cleanRelative_elements hp [] (by rw [h0]; simp [splitSlash])
  simp [cleanElement] at this

/-- A clean relative path does not start with a slash. -/
theorem cleanRelative_not_rooted {p : String} (hp : cleanRelative p = true) :
    hasPrefix p "/" = false := by
  rcases hd : p.data with _ | ⟨c, cs⟩
  · exact absurd hd (cleanRelative_ne_nil hp)
  · by_cases hc : c = '/'
    · subst hc
      have := cleanRelative_elements hp [] (by rw [hd]; simp [splitSlash])
      simp [cleanElement] at this
    · have hne : ¬ ('/' = c) := fun h => hc h.symm
      simp [hasPrefix, hd, List.isPrefixOf, hne]

/-- A clean relative path does not end with a slash. -/
theorem cleanRelative_getLast {p : String} (hp : cleanRelative p = true) :
    p.data.getLast? ≠ some '/' := by
  intro h
  have h1 := splitSlash_getLast p.data h
  have hmem : [] ∈ splitSlash p.data := List.mem_of_getLast?_eq_some h1
  have := cleanRelative_elements hp [] hmem
  simp [cleanElement] at this

/-- `path.Clean` leaves a clean relative path under the root as it is. -/
theorem pathClean_slash_clean {p : String} (hp : cleanRelative p = true) :
    pathClean ("/" ++ p) = "/" ++ p := by
  have e : ("/" ++ p : String) = ⟨'/' :: p.data⟩ := by
    apply String.ext
    simp [String.data_append]
  rw [e, pathClean_rooted p.data (fun seg hseg => Or.inr (cleanRelative_elements hp seg hseg)),
    cleanRelative_filter hp, intercalate_splitSlash]

/-- The name `http.Dir.Open` makes of a clean relative path under the root
is that path. -/
theorem pathClean_slash_slash_clean {p : String} (hp : cleanRelative p = true) :
    pathClean ("/" ++ ("/" ++ p)) = "/" ++ p := by
  have e : ("/" ++ ("/" ++ p) : String) = ⟨'/' :: ('/' :: p.data)⟩ := by
    apply String.ext
    simp [String.data_append]
  have e2 : ("/" ++ p : String) = ⟨'/' :: p.data⟩ := by
    apply String.ext
    simp [String.data_append]
  have hsplit : splitSlash ('/' :: p.data) = [] :: splitSlash p.data := by
    simp [splitSlash]
  rw [e, pathClean_rooted, hsplit, e2]
  · simp only [ne_eq, not_true_eq_false, decide_False, Bool.false_eq_true, not_false_eq_true,
      List.filter_cons_of_neg]
    rw [cleanRelative_filter hp, intercalate_splitSlash]
  · intro seg hseg
    rw [hsplit] at hseg
    rcases List.mem_cons.mp hseg with h0 | h1
    · exact Or.inl h0
    · exact Or.inr (cleanRelative_elements hp seg h1)

/-- A clean relative path under `/static/` is in canonical form. -/
theorem cleanPath_static_clean {p : String} (hp : cleanRelative p = true) :
    cleanPath ("/static/" ++ p) = "/static/" ++ p := by
  have e : ("/static/" ++ p : String) = ⟨'/' :: ("static/".data ++ p.data)⟩ := by
    apply String.ext
    simp [String.data_append]
  have hsplit : splitSlash ("static/".data ++ p.data) = "static".data :: splitSlash p.data := by
    obtain ⟨y, ys, hy⟩ := List.exists_cons_of_ne_nil (splitSlash_ne_nil p.data)
    simp [splitSlash, hy]
  have hclean : pathClean ("/static/" ++ p) = "/static/" ++ p := by
    rw [e, pathClean_rooted, hsplit]
    · have hf : ("static".data :: splitSlash p.data).filter (fun seg => seg ≠ []) =
          "static".data :: splitSlash p.data := by
        rw [List.filter_cons_of_pos (by simp), cleanRelative_filter hp]
      obtain ⟨y, ys, hy⟩ := List.exists_cons_of_ne_nil (splitSlash_ne_nil p.data)
      rw [hf, hy, intercalate_cons_cons, ← hy, intercalate_splitSlash]
      simp
    · intro seg hseg
      rw [hsplit] at hseg
      rcases List.mem_cons.mp hseg with h0 | h1
      · subst h0
        exact Or.inr (by decide)
      · exact Or.inr (cleanRelative_elements hp seg h1)
  have hne : ("/static/" ++ p : String) ≠ "" := by
    intro h0
    have := congrArg String.data h0
    simp [String.data_append] at this
  have hhead : ("/static/" ++ p : String).data.head? = some '/' := by
    simp [String.data_append]
  have hlast : ("/static/" ++ p : String).data.getLast? ≠ some '/' := by
    rw [String.data_append, List.getLast?_append_of_ne_nil _ (cleanRelative_ne_nil hp)]
    exact cleanRelative_getLast hp
  simp only [cleanPath, hne, if_false, hhead, if_true, hclean]
  rw [if_neg]
  intro h
  exact hlast h.1

/-! ## The router -/

theorem hasPrefix_append_self (pre p : String) : hasPrefix (pre ++ p) pre = true := by
  simp [hasPrefix, String.data_append]

theorem trimPrefix_append_self (pre p : String) : trimPrefix (pre ++ p) pre = p := by
  simp [trimPrefix, hasPrefix_append_self, String.data_append]

theorem fixedPaths_not_static (p : String) (hp : p ∈ fixedPaths) :
    hasPrefix p "/static/" = false := by
  simp only [fixedPaths, List.mem_cons, List.mem_singleton, List.not_mem_nil, or_false] at hp
  rcases hp with rfl | rfl | rfl | rfl <;> decide

/-- The outcome of `Router.dispatch` on the routes of `main`, case by case,
for a path in canonical form. -/
theorem dispatch_routes (req : Request) (hc : cleanPath req.path = req.path) :
    Router.dispatch routes req =
      if req.path = "/" then
        (if req.method = "GET" then .handler .homeHandler else .methodNotAllowed)
      else if req.path = "/api/hello" then
        (if req.method = "GET" then .handler .helloHandler else .methodNotAllowed)
      else if req.path = "/health" then
        (if req.method = "GET" then .handler .healthHandler else .methodNotAllowed)
      else if req.path = "/ready" then
        (if req.method = "GET" then .handler .readyHandler else .methodNotAllowed)
      else if hasPrefix req.path "/static/" then .handler .staticFiles
      else .notFound := by
  obtain ⟨m, p, hd, bd⟩ := req
  have e1 : hasPrefix "/" "/static/" = false := by decide
  have e2 : hasPrefix "/api/hello" "/static/" = false := by decide
  have e3 : hasPrefix "/health" "/static/" = false := by decide
  have e4 : hasPrefix "/ready" "/static/" = false := by decide
  simp only at hc ⊢
  by_cases hm : m = "GET" <;> by_cases h1 : p = "/" <;> by_cases h2 : p = "/api/hello" <;>
    by_cases h3 : p = "/health" <;> by_cases h4 : p = "/ready" <;>
    by_cases h5 : hasPrefix p "/static/" = true <;>
    simp_all [Router.dispatch, Router.Match, Router.matchRoutes, routes, Route.Match,
      Route.matchLoop, Matcher.Match]

/-- A path that is not canonical is answered by a redirect, whatever the routes. -/
theorem dispatch_moved (rs : List Route) (req : Request) (hc : cleanPath req.path ≠ req.path) :
    Router.dispatch rs req = .moved (cleanPath req.path) := by
  simp [Router.dispatch, hc]

/-- C2, amended: a request that is not a GET to one of the four fixed paths
and whose path does not start with `/static/` reaches no handler, whatever its
method. When its path equals its cleaned form it gets status 405 if the path
is one of the four, and status 404 otherwise; when its path differs from its
cleaned form it gets status 301, with the URL of the cleaned path as
`Location`. -/
theorem unmatched_request (env : World) (req : Request)
    (hfixed : ¬ (req.method = "GET" ∧ req.path ∈ fixedPaths))
    (hstatic : hasPrefix req.path "/static/" = false) :
    (∀ h, Router.dispatch routes req ≠ .handler h) ∧
    (cleanPath req.path = req.path → req.path ∈ fixedPaths →
      serve env req = .written (methodNotAllowed .fresh) ∧ (serve env req).status? = some 405) ∧
    (cleanPath req.path = req.path → req.path ∉ fixedPaths →
      serve env req = .written (NotFound .fresh) ∧ (serve env req).status? = some 404) ∧
    (cleanPath req.path ≠ req.path →
      serve env req = .written (movedPermanently .fresh (urlString (cleanPath req.path))) ∧
      (serve env req).status? = some 301) := by
  have key : ∀ hc : cleanPath req.path = req.path,
      Router.dispatch routes req =
        if req.path ∈ fixedPaths then .methodNotAllowed else .notFound := by
    intro hc
    rw [dispatch_routes req hc]
    simp only [fixedPaths, List.mem_cons, List.mem_singleton, List.not_mem_nil, or_false,
      not_and] at hfixed ⊢
    by_cases hm : req.method = "GET" <;> by_cases h1 : req.path = "/" <;>
      by_cases h2 : req.path = "/api/hello" <;> by_cases h3 : req.path = "/health" <;>
      by_cases h4 : req.path = "/ready" <;> simp_all
  refine ⟨?_, ?_, ?_, ?_⟩
  · intro h
    by_cases hc : cleanPath req.path = req.path
    · rw [key hc]
      split <;> simp
    · rw [dispatch_moved routes req hc]
      simp
  · intro hc hp
    have hd := key hc
    rw [if_pos hp] at hd
    have : serve env req = .written (methodNotAllowed .fresh) := by
      simp [serve, Router.ServeHTTP, hd]
    exact ⟨this, by rw [this]; rfl⟩
  · intro hc hp
    have hd := key hc
    rw [if_neg hp] at hd
    have : serve env req = .written (NotFound .fresh) := by
      simp [serve, Router.ServeHTTP, hd]
    exact ⟨this, by rw [this]; rfl⟩
  · intro hc
    have : serve env req =
        .written (movedPermanently .fresh (urlString (cleanPath req.path))) := by
      simp [serve, Router.ServeHTTP, dispatch_moved routes req hc]
    exact ⟨this, by rw [this]; rfl⟩

/-- C2 at `DELETE /health`, where no handler runs and the status is 405; at
`GET /health/`, whose path equals its cleaned form and which gets 404; and at
`POST //a b`, which gets 301 with `Location: /a%20b`. -/
theorem unmatched_request_witness :
    cleanPath "/health/" = "/health/" ∧ cleanPath "//health" = "/health" ∧
    (serve exampleWorld ⟨"DELETE", "/health", [], []⟩ = .written (methodNotAllowed .fresh) ∧
     (serve exampleWorld ⟨"DELETE", "/health", [], []⟩).status? = some 405) ∧
    (serve exampleWorld ⟨"GET", "/health/", [], []⟩ = .written (NotFound .fresh) ∧
     (serve exampleWorld ⟨"GET", "/health/", [], []⟩).status? = some 404) ∧
    (serve exampleWorld ⟨"POST", "//a b", [], []⟩ =
       .written (movedPermanently .fresh (urlString (cleanPath "//a b"))) ∧
     (serve exampleWorld ⟨"POST", "//a b", [], []⟩).status? = some 301) ∧
    urlString (cleanPath "//a b") = "/a%20b" :=
  ⟨by decide, by decide,
   (unmatched_request exampleWorld ⟨"DELETE", "/health", [], []⟩ (by decide) (by decide)).2.1
     (by decide) (by decide),
   (unmatched_request exampleWorld ⟨"GET", "/health/", [], []⟩ (by decide) (by decide)).2.2.1
     (by decide) (by decide),
   (unmatched_request exampleWorld ⟨"POST", "//a b", [], []⟩ (by decide) (by decide)).2.2.2
     (by decide),
   by decide⟩

/-- C2 as stated fails: `POST /static/app.js` is neither a GET to a fixed path
nor a GET under `/static/`, yet the router calls the static file server, which
answers with status 200 and the bytes of the file; and `GET //health`, which
is no GET to exactly `/health`, is answered with status 301, not with 404 or
405. -/
theorem unmatched_request_counterexample :
    Router.dispatch routes ⟨"POST", "/static/app.js", [], []⟩ = .handler .staticFiles ∧
    serve exampleWorld ⟨"POST", "/static/app.js", [], []⟩ =
      .content 200 [.bytes [0x68, 0x69]] ∧
    Router.dispatch routes ⟨"GET", "//health", [], []⟩ = .moved "/health" ∧
    (serve exampleWorld ⟨"GET", "//health", [], []⟩).status? = some 301 := by
  decide

/-- When every route of a list either leaves a new match untouched or takes
the request for the handler `h`, and some route does take it, the
list selects `h`, wherever that route stands. -/
theorem matchRoutes_unique (req : Request) (h : Handler) (rs : List Route)
    (hall : ∀ r ∈ rs, r.Match req {} = (false, {}) ∨ r.Match req {} = (true, ⟨some h, none⟩))
    (hex : ∃ r ∈ rs, r.Match req {} = (true, ⟨some h, none⟩)) :
    Router.matchRoutes req rs {} = (true, ⟨some h, none⟩) := by
  induction rs with
  | nil => simp at hex
  | cons r rest ih =>
    rcases hall r (List.mem_cons_self _ _) with hr | hr
    · have hex2 : ∃ r2 ∈ rest, r2.Match req {} = (true, ⟨some h, none⟩) := by
        obtain ⟨r2, hmem, hr2⟩ := hex
        rcases List.mem_cons.mp hmem with rfl | hmem
        · rw [hr] at hr2
          simp at hr2
        · exact ⟨r2, hmem, hr2⟩
      simp only [Router.matchRoutes, hr]
      exact ih (fun r2 hmem => hall r2 (List.mem_cons_of_mem _ hmem)) hex2
    · simp only [Router.matchRoutes, hr]

/-- A GET request for the fixed path of the route at `table` is dispatched to the
handler of that route by every arrangement of the routes of `main`. -/
theorem dispatch_fixed_of_perm (rs : List Route) (hperm : rs.Perm routes)
    (p : String) (h : Handler) (hd : List (String × String)) (bd : List UInt8)
    (hmem : (⟨[.path p, .methods ["GET"]], h⟩ : Route) ∈ routes)
    (hc : cleanPath p = p)
    (hother : ∀ r ∈ routes, r.Match ⟨"GET", p, hd, bd⟩ {} = (false, {}) ∨
      r.Match ⟨"GET", p, hd, bd⟩ {} = (true, ⟨some h, none⟩)) :
    Router.dispatch rs ⟨"GET", p, hd, bd⟩ = .handler h := by
  have hm : Router.matchRoutes ⟨"GET", p, hd, bd⟩ rs {} = (true, ⟨some h, none⟩) := by
    apply matchRoutes_unique
    · intro r hr
      exact hother r (hperm.mem_iff.mp hr)
    · refine ⟨_, hperm.mem_iff.mpr hmem, ?_⟩
      simp [Route.Match, Route.matchLoop, Matcher.Match]
  simp [Router.dispatch, Router.Match, hc, hm]

/-- C3: a GET request for `/`, `/api/hello`, `/health` or `/ready` is
dispatched to `homeHandler`, `helloHandler`, `healthHandler` or `readyHandler`
respectively, and the response is the one that handler writes; none of the
four paths starts with `/static/`; and the same handler is selected by every
arrangement `rs` of the registered routes. -/
theorem fixed_routes_dispatch (env : World) (rs : List Route) (hperm : rs.Perm routes)
    (hd : List (String × String)) (bd : List UInt8) :
    (Router.dispatch routes ⟨"GET", "/", hd, bd⟩ = .handler .homeHandler ∧
     Router.dispatch routes ⟨"GET", "/api/hello", hd, bd⟩ = .handler .helloHandler ∧
     Router.dispatch routes ⟨"GET", "/health", hd, bd⟩ = .handler .healthHandler ∧
     Router.dispatch routes ⟨"GET", "/ready", hd, bd⟩ = .handler .readyHandler) ∧
    (serve env ⟨"GET", "/", hd, bd⟩ = .written (homeHandler .fresh ⟨"GET", "/", hd, bd⟩) ∧
     serve env ⟨"GET", "/api/hello", hd, bd⟩ =
       .written (helloHandler env.hostname env.now .fresh ⟨"GET", "/api/hello", hd, bd⟩) ∧
     serve env ⟨"GET", "/health", hd, bd⟩ =
       .written (healthHandler env.now .fresh ⟨"GET", "/health", hd, bd⟩) ∧
     serve env ⟨"GET", "/ready", hd, bd⟩ =
       .written (readyHandler env.now .fresh ⟨"GET", "/ready", hd, bd⟩)) ∧
    (∀ p ∈ fixedPaths, hasPrefix p "/static/" = false) ∧
    (Router.dispatch rs ⟨"GET", "/", hd, bd⟩ = .handler .homeHandler ∧
     Router.dispatch rs ⟨"GET", "/api/hello", hd, bd⟩ = .handler .helloHandler ∧
     Router.dispatch rs ⟨"GET", "/health", hd, bd⟩ = .handler .healthHandler ∧
     Router.dispatch rs ⟨"GET", "/ready", hd, bd⟩ = .handler .readyHandler) := by
  have e1 : hasPrefix "/" "/static/" = false := by decide
  have e2 : hasPrefix "/api/hello" "/static/" = false := by decide
  have e3 : hasPrefix "/health" "/static/" = false := by decide
  have e4 : hasPrefix "/ready" "/static/" = false := by decide
  have all : ∀ rs2 : List Route, rs2.Perm routes →
      (Router.dispatch rs2 ⟨"GET", "/", hd, bd⟩ = .handler .homeHandler ∧
       Router.dispatch rs2 ⟨"GET", "/api/hello", hd, bd⟩ = .handler .helloHandler ∧
       Router.dispatch rs2 ⟨"GET", "/health", hd, bd⟩ = .handler .healthHandler ∧
       Router.dispatch rs2 ⟨"GET", "/ready", hd, bd⟩ = .handler .readyHandler) := by
    intro rs2 hp
    refine ⟨?_, ?_, ?_, ?_⟩ <;>
      · apply dispatch_fixed_of_perm rs2 hp
        · simp [routes]
        · decide
        · intro r hr
          simp only [routes, List.mem_cons, List.mem_singleton, List.not_mem_nil,
            or_false] at hr
          rcases hr with rfl | rfl | rfl | rfl | rfl <;>
            simp [Route.Match, Route.matchLoop, Matcher.Match, e1, e2, e3, e4]
  have hr := all routes (List.Perm.refl _)
  refine ⟨hr, ?_, fixedPaths_not_static, all rs hperm⟩
  obtain ⟨h1, h2, h3, h4⟩ := hr
  refine ⟨?_, ?_, ?_, ?_⟩
  · simp [serve, Router.ServeHTTP, h1, Handler.ServeHTTP]
  · simp [serve, Router.ServeHTTP, h2, Handler.ServeHTTP]
  · simp [serve, Router.ServeHTTP, h3, Handler.ServeHTTP]
  · simp [serve, Router.ServeHTTP, h4, Handler.ServeHTTP]

/-- C3 with the routes registered in the opposite order. -/
theorem fixed_routes_dispatch_witness :
    routes.reverse.Perm routes ∧
    Router.dispatch routes.reverse ⟨"GET", "/health", [], []⟩ = .handler .healthHandler :=
  ⟨List.reverse_perm _,
   (fixed_routes_dispatch exampleWorld routes.reverse (List.reverse_perm _) [] []).2.2.2.2.2.1⟩

/-! ## The static mount -/

/-- A request with a canonical path under `/static/` goes to the static file
server, whatever its method: the route of line 36 has no method matcher. -/
theorem dispatch_static (req : Request) (hc : cleanPath req.path = req.path)
    (hs : hasPrefix req.path "/static/" = true) :
    Router.dispatch routes req = .handler .staticFiles := by
  have hne : req.path ∉ fixedPaths := by
    intro h
    rw [fixedPaths_not_static _ h] at hs
    exact Bool.false_ne_true hs
  simp only [fixedPaths, List.mem_cons, List.mem_singleton, List.not_mem_nil, or_false,
    not_or] at hne
  obtain ⟨h1, h2, h3, h4⟩ := hne
  rw [dispatch_routes req hc]
  simp [h1, h2, h3, h4, hs]

/-- The handler of line 36 passes the path without `/static/` to the file server. -/
theorem staticFiles_strips (fs : FileSystem) (w : ResponseWriter) (m p : String)
    (hd : List (String × String)) (bd : List UInt8) :
    staticFiles fs w ⟨m, "/static/" ++ p, hd, bd⟩ = FileServer fs w ⟨m, p, hd, bd⟩ := by
  have hlen : p.length < ("/static/" ++ p).length := by
    rw [String.length_append]
    have : ("/static/" : String).length = 8 := by decide
    omega
  simp only [staticFiles, StripPrefix, trimPrefix_append_self]
  rw [if_pos hlen]

/-- The file server looks a clean relative path `p` up under the name `/p`. -/
theorem FileServer_clean (fs : FileSystem) (w : ResponseWriter) (m p : String)
    (hd : List (String × String)) (bd : List UInt8) (hp : cleanRelative p = true) :
    FileServer fs w ⟨m, p, hd, bd⟩ =
      if hasSuffix ("/" ++ p) "/index.html" then .written (movedPermanently w "./")
      else match fs ("/" ++ p) with
        | .notExist => .written (Error w "404 page not found" 404)
        | .permission => .written (Error w "403 Forbidden" 403)
        | .failure => .written (Error w "500 Internal Server Error" 500)
        | .dir _ => .written (movedPermanently w (pathBase ("/" ++ p) ++ "/"))
        | .file content => serveContent ⟨m, "/" ++ p, hd, bd⟩ content := by
  have hlast : ¬ ('/' :: p.data).getLast? = some '/' := by
    obtain ⟨c, cs, hcs⟩ := List.exists_cons_of_ne_nil (cleanRelative_ne_nil hp)
    have := cleanRelative_getLast hp
    rw [hcs] at this ⊢
    rwa [List.getLast?_cons_cons]
  simp only [FileServer, cleanRelative_not_rooted hp, Bool.false_eq_true, if_false, serveFile,
    DirOpen, pathClean_slash_clean hp, pathClean_slash_slash_clean hp, String.data_append]
  split
  · rfl
  · cases fs ("/" ++ p) <;> simp [hlast]

/-- C10, amended: take a GET request whose path is `/static/` followed by `p`.
If that path differs from its cleaned form, the router answers with status
301 and serves no file. If `p` is a clean relative path (elements separated
by single slashes, none empty, `.` or `..`), the router hands `p`, without
the `/static/`, to the file server over `./static/`. There, a `p` whose last
element is `index.html` is answered with a redirect to `./`. For any other
such `p`: when nothing exists at `/p` under the root the answer is the 404
of `http.NotFound`; and when a regular file exists there and the request
carries no conditional and no `Range` header field, the status is 200 and the
body is exactly the bytes of that file. -/
theorem static_mount (env : World) (p : String) (hd : List (String × String))
    (bd : List UInt8) :
    (cleanPath ("/static/" ++ p) ≠ "/static/" ++ p →
      serve env ⟨"GET", "/static/" ++ p, hd, bd⟩ =
        .written (movedPermanently .fresh (urlString (cleanPath ("/static/" ++ p)))) ∧
      (serve env ⟨"GET", "/static/" ++ p, hd, bd⟩).status? = some 301) ∧
    (cleanRelative p = true →
      Router.dispatch routes ⟨"GET", "/static/" ++ p, hd, bd⟩ = .handler .staticFiles ∧
      serve env ⟨"GET", "/static/" ++ p, hd, bd⟩ =
        FileServer env.static .fresh ⟨"GET", p, hd, bd⟩ ∧
      (hasSuffix ("/" ++ p) "/index.html" = true →
        serve env ⟨"GET", "/static/" ++ p, hd, bd⟩ =
          .written (movedPermanently .fresh "./")) ∧
      (hasSuffix ("/" ++ p) "/index.html" = false →
        (env.static ("/" ++ p) = .notExist →
          serve env ⟨"GET", "/static/" ++ p, hd, bd⟩ = .written (NotFound .fresh) ∧
          (serve env ⟨"GET", "/static/" ++ p, hd, bd⟩).status? = some 404) ∧
        (∀ content, env.static ("/" ++ p) = .file content →
          Request.plain ⟨"GET", "/static/" ++ p, hd, bd⟩ = true →
          serve env ⟨"GET", "/static/" ++ p, hd, bd⟩ = .content 200 [.bytes content]))) := by
  constructor
  · intro hc
    have : serve env ⟨"GET", "/static/" ++ p, hd, bd⟩ =
        .written (movedPermanently .fresh (urlString (cleanPath ("/static/" ++ p)))) := by
      simp [serve, Router.ServeHTTP,
        dispatch_moved routes ⟨"GET", "/static/" ++ p, hd, bd⟩ hc]
    exact ⟨this, by rw [this]; rfl⟩
  · intro hp
    have hdisp : Router.dispatch routes ⟨"GET", "/static/" ++ p, hd, bd⟩ =
        .handler .staticFiles :=
      dispatch_static ⟨"GET", "/static/" ++ p, hd, bd⟩ (cleanPath_static_clean hp)
        (hasPrefix_append_self _ _)
    have hserve : serve env ⟨"GET", "/static/" ++ p, hd, bd⟩ =
        FileServer env.static .fresh ⟨"GET", p, hd, bd⟩ := by
      simp only [serve, Router.ServeHTTP, hdisp, Handler.ServeHTTP]
      exact staticFiles_strips _ _ _ _ _ _
    refine ⟨hdisp, hserve, ?_, ?_⟩
    · intro hidx
      rw [hserve, FileServer_clean _ _ _ _ _ _ hp, if_pos hidx]
    · intro hidx
      have hidx2 : ¬ hasSuffix ("/" ++ p) "/index.html" = true := by simp [hidx]
      constructor
      · intro hno
        have : serve env ⟨"GET", "/static/" ++ p, hd, bd⟩ = .written (NotFound .fresh) := by
          rw [hserve, FileServer_clean _ _ _ _ _ _ hp, if_neg hidx2, hno]
          rfl
        exact ⟨this, by rw [this]; rfl⟩
      · intro content hfl hplain
        rw [hserve, FileServer_clean _ _ _ _ _ _ hp, if_neg hidx2, hfl]
        simp only [Request.plain, Request.headerGet, Bool.decide_and, Bool.and_eq_true,
          decide_eq_true_eq] at hplain
        obtain ⟨h1, h2, h3, h4, h5⟩ := hplain
        simp [serveContent, Request.headerGet, h1, h2, h3, h4, h5]

/-- C10 at `GET /static/app.js` over a root that holds `app.js`, and at
`GET /static/missing.css`. -/
theorem static_mount_witness :
    cleanRelative "app.js" = true ∧ exampleFiles "/app.js" = .file [0x68, 0x69] ∧
    serve exampleWorld ⟨"GET", "/static/app.js", [], []⟩ = .content 200 [.bytes [0x68, 0x69]] ∧
    exampleFiles "/missing.css" = .notExist ∧
    serve exampleWorld ⟨"GET", "/static/missing.css", [], []⟩ = .written (NotFound .fresh) :=
  ⟨by decide, by decide,
   ((static_mount exampleWorld "app.js" [] []).2 (by decide)).2.2.2
     (by decide) |>.2 [0x68, 0x69] (by decide) (by decide),
   by decide,
   (((static_mount exampleWorld "missing.css" [] []).2 (by decide)).2.2.2
     (by decide) |>.1 (by decide)).1⟩

/-- C10 as stated fails, each time for a GET request under `/static/` and a
file that exists. `index.html` exists, yet `GET /static/index.html` is
answered with a redirect to `./`. `GET /static/../health` is answered by the
router with a redirect to `/health`, the file server not being called.
`app.js` exists, yet `GET /static/app.js/` is answered with a redirect to
`../app.js`; `GET /static/app.js` with `Range: x` is answered with status 416
and the text `invalid range`; and with `If-None-Match: *` it is answered with
status 304 and no body. -/
theorem static_mount_counterexample :
    exampleFiles "/index.html" = .file [0x3c, 0x70, 0x3e] ∧
    serve exampleWorld ⟨"GET", "/static/index.html", [], []⟩ =
      .written (movedPermanently .fresh "./") ∧
    (serve exampleWorld ⟨"GET", "/static/index.html", [], []⟩).status? = some 301 ∧
    Router.dispatch routes ⟨"GET", "/static/../health", [], []⟩ = .moved "/health" ∧
    (serve exampleWorld ⟨"GET", "/static/../health", [], []⟩).status? = some 301 ∧
    exampleFiles "/app.js" = .file [0x68, 0x69] ∧
    serve exampleWorld ⟨"GET", "/static/app.js/", [], []⟩ =
      .written (movedPermanently .fresh "../app.js") ∧
    serve exampleWorld ⟨"GET", "/static/app.js", [("Range", "x")], []⟩ =
      .content 416 [.text "invalid range\n"] ∧
    serve exampleWorld ⟨"GET", "/static/app.js", [("If-None-Match", "*")], []⟩ =
      .content 304 [] := by
  decide

end GoWebApp
